import Mathlib

/-!
# Region-Fill Resolver: a verification development

The repository is a notebook whose only algorithmic content is the
conditional region-fill semantics of a plotting library's fill-between
feature (the `where`-mask boundary-fill algorithm), plus a small
random-walker example that supplies analytic one-sigma bounds to it.

The resolver itself is implemented inside the external plotting library,
so its behaviour is modelled here from the specification's description:
given x positions, lower/upper boundary sequences and an optional boolean
mask, it groups the mask's true indices into maximal contiguous runs and
emits one fill polygon per run, with linearly interpolated boundary
points added at the mask's true/false transition edges.

Values are modelled as rationals so every definition is executable.
-/

/-- Modelled from the spec: the single error kind of the resolver,
raised when the input sequence lengths disagree.  The source resolver is
in the external plotting library, not in this repository. -/
inductive ShapeMismatchError where
  | shapeMismatch
deriving DecidableEq, Repr

/-- Modelled from the spec: a fill polygon is an ordered vertex list
(x, y) tracing the upper boundary forward across the interval and the
lower boundary backward, closing the shape. -/
structure FillPolygon where
  vertices : List (ℚ × ℚ)
deriving DecidableEq, Repr

/-- Modelled from the spec: left-to-right scan of the mask, grouping
indices into maximal contiguous runs of `true`.  The accumulator holds
the absolute index of the next sample and, when inside a run, the index
where the current run started. -/
def trueRunsAux : List Bool → ℕ → Option ℕ → List (ℕ × ℕ)
  | [], _, none => []
  | [], i, some s => [(s, i - 1)]
  | b :: rest, i, none =>
      if b then trueRunsAux rest (i + 1) (some i)
      else trueRunsAux rest (i + 1) none
  | b :: rest, i, some s =>
      if b then trueRunsAux rest (i + 1) (some s)
      else (s, i - 1) :: trueRunsAux rest (i + 1) none

/-- Modelled from the spec: the maximal contiguous runs `[i0, i1]` of
true indices of a mask, in left-to-right order of occurrence. -/
def trueRuns (mask : List Bool) : List (ℕ × ℕ) :=
  trueRunsAux mask 0 none

/-- Modelled from the spec: the interpolated boundary point between
sample `j` and sample `j + 1`, at the fractional position where the mask
logically transitions (taken as halfway between the two samples, as the
mask is opaque ground truth): linear interpolation of the x, lower and
upper values between the two samples, returned as `(x, lower, upper)`. -/
def interpPoint (x lower upper : List ℚ) (j : ℕ) : ℚ × ℚ × ℚ :=
  ((x.getD j 0 + x.getD (j + 1) 0) / 2,
   (lower.getD j 0 + lower.getD (j + 1) 0) / 2,
   (upper.getD j 0 + upper.getD (j + 1) 0) / 2)

/-- The list of indices `i0, i0+1, ..., i1` of a run. -/
def runIndices (i0 i1 : ℕ) : List ℕ :=
  (List.range (i1 + 1 - i0)).map (fun j => i0 + j)

/-- Modelled from the spec: the upper-boundary vertices of a run, in
increasing index order. -/
def upperChain (x upper : List ℚ) (i0 i1 : ℕ) : List (ℚ × ℚ) :=
  (runIndices i0 i1).map (fun i => (x.getD i 0, upper.getD i 0))

/-- Modelled from the spec: the lower-boundary vertices of a run, in
decreasing index order. -/
def lowerChain (x lower : List ℚ) (i0 i1 : ℕ) : List (ℚ × ℚ) :=
  ((runIndices i0 i1).reverse).map (fun i => (x.getD i 0, lower.getD i 0))

/-- Modelled from the spec: the fill polygon of one included run
`[i0, i1]` of a length-`N` input.  When the run does not touch the start
of the series (`i0 > 0`) an interpolated boundary point between `i0 - 1`
and `i0` is prepended, and symmetrically a trailing interpolated point is
appended when `i1 < N - 1`; so exactly two interpolated boundary points
are added for a run strictly inside the domain.  The vertices are the
upper boundary forward (including the interpolated lead/trail points)
followed by the lower boundary backward. -/
def runPolygon (x lower upper : List ℚ) (N i0 i1 : ℕ) : FillPolygon :=
  let lead :=
    if 0 < i0 then
      [((interpPoint x lower upper (i0 - 1)).1, (interpPoint x lower upper (i0 - 1)).2.2)]
    else []
  let trail :=
    if i1 + 1 < N then
      [((interpPoint x lower upper i1).1, (interpPoint x lower upper i1).2.2)]
    else []
  ⟨lead ++ upperChain x upper i0 i1 ++ trail ++ lowerChain x lower i0 i1⟩

/-- Modelled from the spec: the shape precondition — `x`, `lower`,
`upper` (and `mask`, when present) have equal length `N ≥ 1`. -/
def validShapes (x lower upper : List ℚ) (mask : Option (List Bool)) : Bool :=
  (lower.length == x.length) && (upper.length == x.length) &&
    (match mask with
     | none => true
     | some m => m.length == x.length) &&
    (1 ≤ x.length : Bool)

/-- Modelled from the spec: the Region-Fill Resolver.  Fails with
`ShapeMismatchError` unless all sequences share a length `N ≥ 1`; treats
an absent mask as the single included run `[0, N-1]`; otherwise emits one
fill polygon per maximal contiguous true run of the mask, in
left-to-right order. -/
def resolve (x lower upper : List ℚ) (mask : Option (List Bool)) :
    Except ShapeMismatchError (List FillPolygon) :=
  if validShapes x lower upper mask = true then
    let N := x.length
    let runs :=
      match mask with
      | none => [(0, N - 1)]
      | some m => trueRuns m
    Except.ok (runs.map (fun r => runPolygon x lower upper N r.1 r.2))
  else
    Except.error ShapeMismatchError.shapeMismatch

/-! ## Lemmas about the run scanner and the shape check -/

lemma validShapes_iff (x lower upper : List ℚ) (mask : Option (List Bool)) :
    validShapes x lower upper mask = true ↔
      (lower.length = x.length ∧ upper.length = x.length ∧
        (∀ m ∈ mask, m.length = x.length) ∧ 1 ≤ x.length) := by
  cases mask <;> simp [validShapes] <;> tauto

lemma trueRunsAux_skip_false (b : ℕ) (rest : List Bool) (i : ℕ) :
    trueRunsAux (List.replicate b false ++ rest) i none =
      trueRunsAux rest (i + b) none := by
  induction b generalizing i with
  | zero => simp
  | succ n ih =>
      rw [List.replicate_succ, List.cons_append]
      simp only [trueRunsAux, if_neg (by simp : ¬ (false = true))]
      rw [ih (i + 1)]
      have h2 : i + 1 + n = i + (n + 1) := by omega
      rw [h2]

lemma trueRunsAux_scan_true (k : ℕ) (rest : List Bool) (i s : ℕ) :
    trueRunsAux (List.replicate k true ++ rest) i (some s) =
      trueRunsAux rest (i + k) (some s) := by
  induction k generalizing i with
  | zero => simp
  | succ n ih =>
      have hstep : trueRunsAux (List.replicate (n + 1) true ++ rest) i (some s) =
          trueRunsAux (List.replicate n true ++ rest) (i + 1) (some s) := rfl
      rw [hstep, ih (i + 1)]
      have h2 : i + 1 + n = i + (n + 1) := by omega
      rw [h2]

lemma trueRunsAux_all_false (b i : ℕ) :
    trueRunsAux (List.replicate b false) i none = [] := by
  have h := trueRunsAux_skip_false b [] i
  rw [List.append_nil] at h
  rw [h]
  rfl

lemma trueRunsAux_close_run (b i s : ℕ) (hb : 1 ≤ b) :
    trueRunsAux (List.replicate b false) i (some s) = [(s, i - 1)] := by
  obtain ⟨n, rfl⟩ : ∃ n, b = n + 1 := ⟨b - 1, by omega⟩
  rw [List.replicate_succ]
  simp only [trueRunsAux, if_neg (by simp : ¬ (false = true))]
  rw [trueRunsAux_all_false]

lemma trueRuns_single_run (a k b : ℕ) (hk : 1 ≤ k) (hb : 1 ≤ b) :
    trueRuns (List.replicate a false ++
        (List.replicate k true ++ List.replicate b false)) = [(a, a + k - 1)] := by
  obtain ⟨n, rfl⟩ : ∃ n, k = n + 1 := ⟨k - 1, by omega⟩
  rw [trueRuns, trueRunsAux_skip_false]
  have hstep : trueRunsAux (List.replicate (n + 1) true ++ List.replicate b false)
        (0 + a) none =
      trueRunsAux (List.replicate n true ++ List.replicate b false)
        (0 + a + 1) (some (0 + a)) := rfl
  rw [hstep, trueRunsAux_scan_true, trueRunsAux_close_run _ _ _ hb]
  simp

lemma trueRuns_replicate_true (N : ℕ) (hN : 1 ≤ N) :
    trueRuns (List.replicate N true) = [(0, N - 1)] := by
  obtain ⟨n, rfl⟩ : ∃ n, N = n + 1 := ⟨N - 1, by omega⟩
  have hstep : trueRuns (List.replicate (n + 1) true) =
      trueRunsAux (List.replicate n true) 1 (some 0) := rfl
  rw [hstep, ← List.append_nil (List.replicate n true), trueRunsAux_scan_true]
  simp [trueRunsAux]

lemma trueRuns_of_all_false (m : List Bool) (h : ∀ b ∈ m, b = false) :
    trueRuns m = [] := by
  have hm : m = List.replicate m.length false := List.eq_replicate_iff.mpr ⟨rfl, h⟩
  rw [hm, trueRuns, trueRunsAux_all_false]

lemma runPolygon_length_inner (x lower upper : List ℚ) (N i0 i1 : ℕ)
    (h0 : 0 < i0) (h1 : i1 + 1 < N) :
    (runPolygon x lower upper N i0 i1).vertices.length = 2 * (i1 + 1 - i0) + 2 := by
  simp [runPolygon, if_pos h0, if_pos h1, upperChain, lowerChain, runIndices]
  omega

/-! ## The claims -/

/-- C1: for a valid input of length `N = a + k + b` whose mask's true
indices form exactly one contiguous run `[i0, i1] = [a, a + k - 1]` with
`i0 > 0` and `i1 < N - 1` (so the samples at `i0 - 1` and `i1 + 1` are
excluded), `resolve` returns exactly one polygon, and that polygon's
vertex count equals `2 * (i1 - i0 + 1) + 2`. -/
theorem resolve_single_inner_run (x lower upper : List ℚ) (a k b : ℕ)
    (hl : lower.length = x.length) (hu : upper.length = x.length)
    (hN : x.length = a + k + b) (ha : 1 ≤ a) (hk : 1 ≤ k) (hb : 1 ≤ b) :
    resolve x lower upper
        (some (List.replicate a false ++
          (List.replicate k true ++ List.replicate b false))) =
      Except.ok [runPolygon x lower upper x.length a (a + k - 1)] ∧
    (runPolygon x lower upper x.length a (a + k - 1)).vertices.length =
      2 * ((a + k - 1) - a + 1) + 2 := by
  have hv : validShapes x lower upper
      (some (List.replicate a false ++
        (List.replicate k true ++ List.replicate b false))) = true := by
    rw [validShapes_iff]
    refine ⟨hl, hu, ?_, by omega⟩
    intro m hm
    simp only [Option.mem_def, Option.some.injEq] at hm
    subst hm
    simp [hN]
    omega
  constructor
  · rw [resolve, if_pos hv]
    simp [trueRuns_single_run a k b hk hb]
  · rw [runPolygon_length_inner x lower upper x.length a (a + k - 1)
      (by omega) (by omega)]
    omega

/-- Witness for C1 at `x = [0,1,2,3,4]`, `lower = [0,0,0,0,0]`,
`upper = [1,1,1,1,1]`, `a = 1`, `k = 2`, `b = 2`. -/
theorem resolve_single_inner_run_witness :
    resolve [0, 1, 2, 3, 4] [0, 0, 0, 0, 0] [1, 1, 1, 1, 1]
        (some (List.replicate 1 false ++
          (List.replicate 2 true ++ List.replicate 2 false))) =
      Except.ok
        [runPolygon [0, 1, 2, 3, 4] [0, 0, 0, 0, 0] [1, 1, 1, 1, 1]
          (List.length [(0 : ℚ), 1, 2, 3, 4]) 1 (1 + 2 - 1)] ∧
    (runPolygon [0, 1, 2, 3, 4] [0, 0, 0, 0, 0] [1, 1, 1, 1, 1]
        (List.length [(0 : ℚ), 1, 2, 3, 4]) 1 (1 + 2 - 1)).vertices.length =
      2 * ((1 + 2 - 1) - 1 + 1) + 2 :=
  resolve_single_inner_run [0, 1, 2, 3, 4] [0, 0, 0, 0, 0] [1, 1, 1, 1, 1]
    1 2 2 rfl rfl rfl (by omega) (by omega) (by omega)

/-- C2: on `x=[0,1,2,3,4]`, `lower=[0,0,0,0,0]`, `upper=[1,1,1,1,1]`,
`mask=[F,T,T,F,F]`, `resolve` returns exactly one polygon; its
interpolated left edge lies at `x = 1/2` and its interpolated right edge
at `x = 5/2`, and the interpolated boundary points at both edges have
upper value `1` and lower value `0`. -/
theorem resolve_midpoint_example :
    resolve [0, 1, 2, 3, 4] [0, 0, 0, 0, 0] [1, 1, 1, 1, 1]
        (some [false, true, true, false, false]) =
      Except.ok [⟨[(1/2, 1), (1, 1), (2, 1), (5/2, 1), (2, 0), (1, 0)]⟩] ∧
    interpPoint [0, 1, 2, 3, 4] [0, 0, 0, 0, 0] [1, 1, 1, 1, 1] 0 =
      (1/2, 0, 1) ∧
    interpPoint [0, 1, 2, 3, 4] [0, 0, 0, 0, 0] [1, 1, 1, 1, 1] 2 =
      (5/2, 0, 1) := by
  refine ⟨?_, ?_, ?_⟩ <;>
    simp [resolve, validShapes, trueRuns, trueRunsAux, runPolygon, interpPoint,
      upperChain, lowerChain, runIndices, List.range_succ] <;>
    norm_num

/-- C3: `resolve` fails (with the sole error `ShapeMismatchError`) if and
only if the inputs do not all share one length `N ≥ 1`, and it returns a
polygon sequence if and only if they do: failure and success are
mutually exclusive and the failing call produces no polygon output. -/
theorem resolve_error_iff (x lower upper : List ℚ) (mask : Option (List Bool)) :
    (resolve x lower upper mask = Except.error ShapeMismatchError.shapeMismatch ↔
      ¬ (lower.length = x.length ∧ upper.length = x.length ∧
          (∀ m ∈ mask, m.length = x.length) ∧ 1 ≤ x.length)) ∧
    ((∃ ps, resolve x lower upper mask = Except.ok ps) ↔
      (lower.length = x.length ∧ upper.length = x.length ∧
        (∀ m ∈ mask, m.length = x.length) ∧ 1 ≤ x.length)) := by
  by_cases hv : validShapes x lower upper mask = true
  · have hp := (validShapes_iff x lower upper mask).mp hv
    rw [resolve, if_pos hv]
    refine ⟨iff_of_false (fun h => Except.noConfusion h) (not_not_intro hp),
      iff_of_true ⟨_, rfl⟩ hp⟩
  · have hp : ¬ (lower.length = x.length ∧ upper.length = x.length ∧
        (∀ m ∈ mask, m.length = x.length) ∧ 1 ≤ x.length) :=
      fun h => hv ((validShapes_iff x lower upper mask).mpr h)
    rw [resolve, if_neg hv]
    refine ⟨iff_of_true rfl hp, iff_of_false ?_ hp⟩
    rintro ⟨ps, hps⟩
    exact Except.noConfusion hps

/-- C4: for a valid input of length `N` with no mask, `resolve` returns
exactly one polygon; that polygon spans the whole index range
`[0, N - 1]` — its vertices are exactly the upper chain over `0..N-1`
followed by the lower chain back, with no interpolated edge point added
at either end — and has `2 * N` vertices. -/
theorem resolve_no_mask (x lower upper : List ℚ)
    (hl : lower.length = x.length) (hu : upper.length = x.length)
    (hN : 1 ≤ x.length) :
    resolve x lower upper none =
      Except.ok [runPolygon x lower upper x.length 0 (x.length - 1)] ∧
    (runPolygon x lower upper x.length 0 (x.length - 1)).vertices =
      upperChain x upper 0 (x.length - 1) ++ lowerChain x lower 0 (x.length - 1) ∧
    (runPolygon x lower upper x.length 0 (x.length - 1)).vertices.length =
      2 * x.length := by
  have hv : validShapes x lower upper none = true := by
    rw [validShapes_iff]
    exact ⟨hl, hu, by simp, hN⟩
  refine ⟨by rw [resolve, if_pos hv]; rfl, ?_, ?_⟩
  · rw [runPolygon]
    simp [if_neg (by omega : ¬ (x.length - 1 + 1 < x.length))]
  · rw [runPolygon]
    simp [if_neg (by omega : ¬ (x.length - 1 + 1 < x.length)),
      upperChain, lowerChain, runIndices]
    omega

/-- Witness for C4 at `x = [1, 2]`, `lower = [0, 0]`, `upper = [3, 3]`. -/
theorem resolve_no_mask_witness :
    resolve [1, 2] [0, 0] [3, 3] none =
      Except.ok [runPolygon [1, 2] [0, 0] [3, 3]
        (List.length [(1 : ℚ), 2]) 0 (List.length [(1 : ℚ), 2] - 1)] ∧
    (runPolygon [1, 2] [0, 0] [3, 3]
        (List.length [(1 : ℚ), 2]) 0 (List.length [(1 : ℚ), 2] - 1)).vertices =
      upperChain [1, 2] [3, 3] 0 (List.length [(1 : ℚ), 2] - 1) ++
        lowerChain [1, 2] [0, 0] 0 (List.length [(1 : ℚ), 2] - 1) ∧
    (runPolygon [1, 2] [0, 0] [3, 3]
        (List.length [(1 : ℚ), 2]) 0 (List.length [(1 : ℚ), 2] - 1)).vertices.length =
      2 * List.length [(1 : ℚ), 2] :=
  resolve_no_mask [1, 2] [0, 0] [3, 3] rfl rfl (by norm_num)

/-- C5: for a valid input of length `N` whose mask is false at every
index, `resolve` succeeds and returns the empty sequence of polygons. -/
theorem resolve_all_false_mask (x lower upper : List ℚ) (m : List Bool)
    (hl : lower.length = x.length) (hu : upper.length = x.length)
    (hm : m.length = x.length) (hN : 1 ≤ x.length)
    (hfalse : ∀ b ∈ m, b = false) :
    resolve x lower upper (some m) = Except.ok [] := by
  have hv : validShapes x lower upper (some m) = true := by
    rw [validShapes_iff]
    refine ⟨hl, hu, ?_, hN⟩
    intro m' hm'
    simp only [Option.mem_def, Option.some.injEq] at hm'
    subst hm'
    exact hm
  rw [resolve, if_pos hv]
  simp [trueRuns_of_all_false m hfalse]

/-- Witness for C5 at `x = [1, 2]`, `lower = [0, 0]`, `upper = [3, 3]`,
`mask = [false, false]`. -/
theorem resolve_all_false_mask_witness :
    resolve [1, 2] [0, 0] [3, 3] (some [false, false]) = Except.ok [] :=
  resolve_all_false_mask [1, 2] [0, 0] [3, 3] [false, false]
    rfl rfl rfl (by norm_num) (by simp)

/-- C6: calling `resolve` with a mask that is true at every index gives
the same polygon sequence as calling it on the same `x`, `lower`,
`upper` with no mask. -/
theorem resolve_all_true_eq_no_mask (x lower upper : List ℚ) (m : List Bool)
    (hm : m.length = x.length) (htrue : ∀ b ∈ m, b = true) :
    resolve x lower upper (some m) = resolve x lower upper none := by
  have hrep : m = List.replicate x.length true :=
    hm ▸ List.eq_replicate_iff.mpr ⟨rfl, htrue⟩
  subst hrep
  have hvv : validShapes x lower upper (some (List.replicate x.length true)) =
      validShapes x lower upper none := by
    simp [validShapes]
  by_cases hv : validShapes x lower upper none = true
  · have hN : 1 ≤ x.length := ((validShapes_iff x lower upper none).mp hv).2.2.2
    rw [resolve, resolve, hvv, if_pos hv, if_pos hv]
    simp [trueRuns_replicate_true x.length hN]
  · rw [resolve, resolve, hvv, if_neg hv, if_neg hv]

/-- Witness for C6 at `x = [1, 2]`, `lower = [0, 0]`, `upper = [3, 3]`,
`mask = [true, true]`. -/
theorem resolve_all_true_eq_no_mask_witness :
    resolve [1, 2] [0, 0] [3, 3] (some [true, true]) =
      resolve [1, 2] [0, 0] [3, 3] none :=
  resolve_all_true_eq_no_mask [1, 2] [0, 0] [3, 3] [true, true] rfl (by simp)

/-- C7: `resolve` is deterministic — two calls on identical (deep-equal)
inputs yield identical (deep-equal) polygon sequences; the model has no
hidden state or randomness, so the result is a function of the four
arguments alone. -/
theorem resolve_deterministic (x x2 lower lower2 upper upper2 : List ℚ)
    (mask mask2 : Option (List Bool))
    (hx : x = x2) (hl : lower = lower2) (hu : upper = upper2)
    (hm : mask = mask2) :
    resolve x lower upper mask = resolve x2 lower2 upper2 mask2 := by
  subst hx hl hu hm
  rfl

/-- Witness for C7 at a concrete input. -/
theorem resolve_deterministic_witness :
    resolve [1, 2] [0, 0] [3, 3] none = resolve [1, 2] [0, 0] [3, 3] none :=
  resolve_deterministic [1, 2] [1, 2] [0, 0] [0, 0] [3, 3] [3, 3] none none
    rfl rfl rfl rfl

/-- Modelled from the spec: the caller-visible state of one resolver
call — the four input sequences the caller owns.  The spec states the
resolver is a pure function that never mutates its inputs, so a call is
embedded as state passing: it returns the result together with the
caller's post-call state. -/
structure CallState where
  x : List ℚ
  lower : List ℚ
  upper : List ℚ
  mask : Option (List Bool)
deriving DecidableEq, Repr

/-- Modelled from the spec: invoking the resolver on the caller's state.
The result is freshly computed from the inputs and the state is passed
through unchanged (no side effects). -/
def resolveCall (s : CallState) :
    Except ShapeMismatchError (List FillPolygon) × CallState :=
  (resolve s.x s.lower s.upper s.mask, s)

/-- C8: `resolve` is pure — for every input (valid or length-mismatched)
the call leaves `x`, `lower`, `upper` and `mask` unchanged, and its only
effect is the returned value (fresh output or `ShapeMismatchError`). -/
theorem resolveCall_pure (s : CallState) :
    (resolveCall s).2 = s ∧
    (resolveCall s).1 = resolve s.x s.lower s.upper s.mask :=
  ⟨rfl, rfl⟩

/-! ## The single-walker example's analytic one-sigma bounds

These definitions embed the notebook's third code cell: `Nsteps = 500`,
`mu = 0.002`, `sigma = 0.01`, and the analytic population bounds
`lower_bound = mu*t - sigma*sqrt(t)` and
`upper_bound = mu*t + sigma*sqrt(t)` over `t = 0, ..., Nsteps - 1`. -/

/-- Number of steps in the single-walker example. -/
def Nsteps : ℕ := 500

/-- Mean step of the single walker. -/
noncomputable def mu : ℝ := 0.002

/-- Standard deviation of the single walker's steps. -/
noncomputable def sigma : ℝ := 0.01

/-- The analytic one-sigma lower population bound at step `t`. -/
noncomputable def lower_bound (t : ℕ) : ℝ := mu * t - sigma * Real.sqrt t

/-- The analytic one-sigma upper population bound at step `t`. -/
noncomputable def upper_bound (t : ℕ) : ℝ := mu * t + sigma * Real.sqrt t

lemma lower_bound_le_upper_bound (t : ℕ) : lower_bound t ≤ upper_bound t := by
  have hs : 0 ≤ Real.sqrt t := Real.sqrt_nonneg _
  have hsig : (0 : ℝ) ≤ sigma := by norm_num [sigma]
  have hprod := mul_nonneg hsig hs
  show mu * t - sigma * Real.sqrt t ≤ mu * t + sigma * Real.sqrt t
  linarith

/-- C9: in the single-walker example the boundary pair supplied to every
fill call is ordered — for every step `t < Nsteps`,
`lower_bound t ≤ upper_bound t`, with equality exactly at `t = 0`
(since `sigma = 0.01 > 0`). -/
theorem walker_bounds_ordered (t : ℕ) (ht : t < Nsteps) :
    lower_bound t ≤ upper_bound t ∧
    (lower_bound t = upper_bound t ↔ t = 0) ∧ (0 : ℝ) < sigma := by
  have hsig : (0 : ℝ) < sigma := by norm_num [sigma]
  refine ⟨lower_bound_le_upper_bound t, ⟨?_, ?_⟩, hsig⟩
  · intro h
    have h2 : mu * t - sigma * Real.sqrt t = mu * t + sigma * Real.sqrt t := h
    have hs0 : sigma * Real.sqrt t = 0 := by linarith
    have hs : Real.sqrt t = 0 := by
      rcases mul_eq_zero.mp hs0 with h1 | h1
      · exact absurd h1 (ne_of_gt hsig)
      · exact h1
    have hle : (t : ℝ) ≤ 0 := Real.sqrt_eq_zero'.mp hs
    have hge : (0 : ℝ) ≤ (t : ℝ) := Nat.cast_nonneg t
    have ht0 : (t : ℝ) = 0 := le_antisymm hle hge
    exact_mod_cast ht0
  · rintro rfl
    show mu * (0 : ℕ) - sigma * Real.sqrt (0 : ℕ) =
      mu * (0 : ℕ) + sigma * Real.sqrt (0 : ℕ)
    simp

/-- Witness for C9 at `t = 3`. -/
theorem walker_bounds_ordered_witness :
    lower_bound 3 ≤ upper_bound 3 ∧
    (lower_bound 3 = upper_bound 3 ↔ (3 : ℕ) = 0) ∧ (0 : ℝ) < sigma :=
  walker_bounds_ordered 3 (by norm_num [Nsteps])

/-- The mask of the first conditional fill call: the walker position is
above the upper one-sigma bound. -/
def maskAbove (X : ℕ → ℝ) (t : ℕ) : Prop := X t > upper_bound t

/-- The mask of the second conditional fill call: the walker position is
below the lower one-sigma bound. -/
def maskBelow (X : ℕ → ℝ) (t : ℕ) : Prop := X t < lower_bound t

/-- C10: the two boolean masks `X > upper_bound` and `X < lower_bound`
of the single-walker example are disjoint — whatever the walker
trajectory `X`, at most one of them holds at any step `t < Nsteps`, so
the two conditionally shaded regions never share a sample index. -/
theorem shaded_masks_disjoint (X : ℕ → ℝ) (t : ℕ) (ht : t < Nsteps) :
    ¬ (maskAbove X t ∧ maskBelow X t) := by
  rintro ⟨h1, h2⟩
  have h1a : X t > upper_bound t := h1
  have h2a : X t < lower_bound t := h2
  have hord := lower_bound_le_upper_bound t
  linarith

/-- Witness for C10 at the constant trajectory `X = 1` and `t = 0`. -/
theorem shaded_masks_disjoint_witness :
    ¬ (maskAbove (fun _ => 1) 0 ∧ maskBelow (fun _ => 1) 0) :=
  shaded_masks_disjoint (fun _ => 1) 0 (by norm_num [Nsteps])
